import Mathlib

/-!
# Verification of the headless-curator playlist engine

A shallow embedding, in Lean 4, of the core algorithms of the
`headless-curator` repository: the category classifier and playlist
builder (`src/curator.py`), the preference-learning passes
(`src/curator.py` together with `src/database/repository.py`), the
duplicate filter (`normalize_song_name` and
`Curator.create_or_update_playlist`), and the orchestration error
handling (`Curator.refresh_playlist`).

Modelling conventions:
* Python `float` weights become `ℚ` (the algorithm only multiplies,
  compares and floors; all constants are decimal literals).
* `datetime` values become integer epoch seconds; `timedelta(hours=h)`
  is `h * 3600` seconds and `timedelta(days=d)` is `d * 86400` seconds.
  A release datetime additionally carries its calendar year as a field,
  since the code reads `.year` but never relates year to instant.
* Python `int(x)` on a nonnegative float is `Int.floor` followed by
  `Int.toNat`; configuration validation (`utils/config.py`,
  `validate_weight`) restricts category weights to `[0, 1]`, and
  theorems carry nonnegativity hypotheses where truncation semantics
  depends on it.
* The SQL queries of `Repository` become list filters over an in-memory
  table, and per-row `upsert_preference` calls over a query result
  become a map over the table; the `preferences` table holds one row per
  track (`Repository.upsert_preference` reads with
  `scalar_one_or_none`).
* `random.shuffle` in `Curator.build_playlist` is taken as the identity
  permutation, matching the identity-shuffle premise under which the
  composition properties are stated.
-/

namespace Curator

/-- Category constants from `PlaylistCategory` (`curator.py:40`). -/
inductive Category where
  | favorites
  | hits
  | discovery
  | wildcard
deriving DecidableEq, Repr

/-- Minimal track info for playlist building (`curator.py:49`). -/
structure TrackInfo where
  id : String
  name : String
  artistName : String
  albumName : String := ""
deriving DecidableEq, Repr

/-- A release datetime: an instant (epoch seconds) plus its calendar
year.  The code compares instants (`release_datetime >= wildcard_cutoff`,
`curator.py:228`) and reads the year (`curator.py:213`) but never
derives one from the other. -/
structure ReleaseDate where
  epoch : Int
  year : Int
deriving DecidableEq, Repr

/-- A candidate track as seen by `Curator.collect_tracks`: catalogue
fields plus an optional release datetime. -/
structure CandidateTrack where
  id : String
  name : String
  artistName : String
  albumName : String := ""
  release : Option ReleaseDate
deriving DecidableEq, Repr

/-- Python `str.lower()` restricted to ASCII, as used for the library
membership keys (`curator.py:198-202,218`). -/
def strLower (s : String) : String :=
  String.mk (s.toList.map Char.toLower)

/-- The `artist:name` membership key of `curator.py:218`:
`f"{track.artist_name.lower()}:{track.name.lower()}"`. -/
def trackKey (artistName name : String) : String :=
  strLower artistName ++ ":" ++ strLower name

/-- Per-track classification logic of the loop body of
`Curator.collect_tracks` (`curator.py:207-233`): `none` means the track
is dropped by the `min_release_year` hard filter; otherwise the track
goes to exactly one of wildcard / hits / discovery.  `cutoff` is the
epoch instant `now - new_release_days` computed at `curator.py:193`. -/
def classify (minReleaseYear : Int) (cutoff : Int) (libraryKeys : List String)
    (t : CandidateTrack) : Option Category :=
  match t.release with
  | some d =>
      if d.year < minReleaseYear then
        none
      else if cutoff ≤ d.epoch then
        some Category.wildcard
      else if trackKey t.artistName t.name ∈ libraryKeys then
        some Category.hits
      else
        some Category.discovery
  | none =>
      if trackKey t.artistName t.name ∈ libraryKeys then
        some Category.hits
      else
        some Category.discovery

/-- The three pools accumulated by `Curator.collect_tracks`
(`curator.py:186-233`), in classification order. -/
def collect_tracks (minReleaseYear : Int) (cutoff : Int)
    (libraryKeys : List String) (candidates : List CandidateTrack) :
    List CandidateTrack × List CandidateTrack × List CandidateTrack :=
  ( candidates.filter (fun t => classify minReleaseYear cutoff libraryKeys t
      = some Category.hits)
  , candidates.filter (fun t => classify minReleaseYear cutoff libraryKeys t
      = some Category.discovery)
  , candidates.filter (fun t => classify minReleaseYear cutoff libraryKeys t
      = some Category.wildcard) )

/-! ## Playlist builder (`Curator.build_playlist`, `curator.py:340-413`) -/

/-- The four category weights (`AlgorithmWeights`, `utils/config.py:34`).
Each field is validated into `[0, 1]` by `validate_weight`; the sum is
not validated. -/
structure AlgorithmWeights where
  favorites : ℚ
  hits : ℚ
  discovery : ℚ
  wildcard : ℚ
deriving DecidableEq, Repr

/-- `int(playlist_size * weight)` (`curator.py:363-366`): Python `int()`
truncation, which on the validator-guaranteed nonnegative products is
floor. -/
def quota (size : Nat) (w : ℚ) : Nat :=
  (Int.floor ((size : ℚ) * w)).toNat

/-- The inner rotation scan of `Curator.build_playlist`
(`curator.py:390-398`): starting from the current rotation position
(head of `ls`), try up to `fuel` categories; pop the head of the first
non-empty one and advance the rotation past it (an examined empty
category is rotated to the back unchanged). -/
def popFirst {α : Type} : Nat → List (List α) → Option (α × List (List α))
  | 0, _ => none
  | _ + 1, [] => none
  | fuel + 1, [] :: rest => popFirst fuel (rest ++ [[]])
  | _ + 1, (x :: t) :: rest => some (x, rest ++ [t])

/-- The outer interleaving loop of `Curator.build_playlist`
(`curator.py:384-402`): emit at most `r` more tracks, stopping early
when one full rotation finds every category exhausted. -/
def interleaveAux {α : Type} : Nat → List (List α) → List α
  | 0, _ => []
  | r + 1, ls =>
      match popFirst ls.length ls with
      | none => []
      | some (x, ls') => x :: interleaveAux r ls'

/-- `Curator.build_playlist` (`curator.py:340-413`) with the shuffle of
lines 370-373 taken as the identity permutation: compute per-category
quotas, truncate each pool to its quota, project to track ids, and
interleave in the fixed rotation order favorites, hits, discovery,
wildcard. -/
def build_playlist (size : Nat) (w : AlgorithmWeights)
    (favorites hits discovery wildcard : List TrackInfo) : List String :=
  interleaveAux size
    [ (favorites.take (quota size w.favorites)).map TrackInfo.id
    , (hits.take (quota size w.hits)).map TrackInfo.id
    , (discovery.take (quota size w.discovery)).map TrackInfo.id
    , (wildcard.take (quota size w.wildcard)).map TrackInfo.id ]

/-! ## Preference store and learning engine
(`Curator.update_preferences`, `curator.py:305-338`;
`Repository`, `database/repository.py`) -/

/-- A row of the `preferences` table (`database/models.py:85-118`),
with datetimes as epoch seconds. -/
structure Preference where
  playCount : Int
  playCountPrevious : Int
  playlistPosition : Option Int
  addedToPlaylistAt : Option Int
  inLibrary : Bool
  isRated : Bool
  weight : ℚ
  lastPlayedAt : Option Int
deriving DecidableEq, Repr

/-- The keyword arguments of `Repository.upsert_preference`
(`database/repository.py:243-252`), each defaulting to `None`. -/
structure UpsertArgs where
  playCount : Option Int := none
  playlistPosition : Option Int := none
  inLibrary : Option Bool := none
  isRated : Option Bool := none
  weight : Option ℚ := none
  lastPlayedAt : Option Int := none
deriving Repr

/-- The body of `Repository.upsert_preference`
(`database/repository.py:254-298`) on a single row: update the existing
row field by field in source order, or build a fresh row.  In the fresh
branch Python's falsy-`or` defaults are kept exactly: `weight or 1.0`
maps a supplied weight of `0` to `1`. -/
def applyUpsert (now : Int) (a : UpsertArgs) : Option Preference → Preference
  | some p =>
      let p1 :=
        match a.playCount with
        | some pc =>
            { p with
                playCountPrevious := p.playCount
                playCount := pc
                lastPlayedAt := if p.playCount < pc then some now else p.lastPlayedAt }
        | none => p
      let p2 :=
        match a.playlistPosition with
        | some pos =>
            { p1 with
                addedToPlaylistAt :=
                  if p1.playlistPosition = none then some now else p1.addedToPlaylistAt
                playlistPosition := some pos }
        | none => p1
      let p3 := match a.inLibrary with
        | some b => { p2 with inLibrary := b }
        | none => p2
      let p4 := match a.isRated with
        | some b => { p3 with isRated := b }
        | none => p3
      let p5 := match a.weight with
        | some w => { p4 with weight := w }
        | none => p4
      match a.lastPlayedAt with
      | some t => { p5 with lastPlayedAt := some t }
      | none => p5
  | none =>
      { playCount := a.playCount.getD 0
        playCountPrevious := 0
        playlistPosition := a.playlistPosition
        addedToPlaylistAt := if a.playlistPosition ≠ none then some now else none
        inLibrary := a.inLibrary.getD false
        isRated := a.isRated.getD false
        weight := match a.weight with
          | some w => if w = 0 then 1 else w
          | none => 1
        lastPlayedAt := a.lastPlayedAt }

/-- The `preferences` table: one row per track id
(`PreferenceRecord.track_id`, one-to-one with `tracks`). -/
abbrev PrefTable := List (Nat × Preference)

/-- `Repository.upsert_preference` at table level: update the row of
`tid` if present (the query reads with `scalar_one_or_none`), otherwise
append a fresh row. -/
def upsert_preference (now : Int) (tid : Nat) (a : UpsertArgs) :
    PrefTable → PrefTable
  | [] => [(tid, applyUpsert now a none)]
  | e :: rest =>
      if e.1 = tid then (tid, applyUpsert now a (some e.2)) :: rest
      else e :: upsert_preference now tid a rest

/-- Row lookup by track id. -/
def findPref (db : PrefTable) (tid : Nat) : Option Preference :=
  (db.find? (fun e => e.1 = tid)).map Prod.snd

/-- The WHERE clause of `Repository.get_unplayed_hot_zone_tracks`
(`database/repository.py:328-345`): playlist position within the hot
zone, added at least `hot_zone_hours` ago, and no play-count increase.
SQL `NULL` comparisons exclude rows with missing position or
added-timestamp. -/
def hotZonePred (hotZoneHours hotZoneSize : Int) (now : Int) (p : Preference) : Bool :=
  match p.playlistPosition, p.addedToPlaylistAt with
  | some pos, some added =>
      pos ≤ hotZoneSize ∧ added ≤ now - hotZoneHours * 3600 ∧
        p.playCount = p.playCountPrevious
  | _, _ => false

/-- The WHERE clause of `Repository.get_decaying_tracks`
(`database/repository.py:347-362`): a non-null last-played timestamp
strictly older than `decay_days` days. -/
def decayPred (decayDays : Int) (now : Int) (p : Preference) : Bool :=
  match p.lastPlayedAt with
  | some lpa => lpa < now - decayDays * 86400
  | none => false

/-- `max(0.1, pref.weight * 0.7)` (`curator.py:316`). -/
def negWeight (w : ℚ) : ℚ := max (1 / 10) (w * (7 / 10))

/-- `max(0.5, 1 - (days_since - decay_days) * 0.02)` (`curator.py:331`). -/
def decayFactor (decayDays daysSince : Int) : ℚ :=
  max (1 / 2) (1 - ((daysSince : ℚ) - (decayDays : ℚ)) * (2 / 100))

/-- `(now - last_played_at).days` (`curator.py:330`): Python
`timedelta.days` floors, hence `Int.fdiv` over epoch seconds. -/
def daysSince (now lpa : Int) : Int := Int.fdiv (now - lpa) 86400

/-- Effect of the negative-signal loop body (`curator.py:315-320`) on
one row: rows matched by the hot-zone query receive
`upsert_preference(track_id, weight=max(0.1, pref.weight * 0.7))`,
other rows are untouched. -/
def negUpdate (hh hs now : Int) (p : Preference) : Preference :=
  if hotZonePred hh hs now p then
    applyUpsert now { weight := some (negWeight p.weight) } (some p)
  else p

/-- The negative-signal pass of `Curator.update_preferences`
(`curator.py:309-321`).  Since the table has one row per track, the
per-row upserts over the hot-zone query result amount to this map. -/
def negativePass (hh hs now : Int) (db : PrefTable) : PrefTable :=
  db.map fun e => (e.1, negUpdate hh hs now e.2)

/-- Effect of the decay loop body (`curator.py:328-336`) on one row:
rows matched by the decaying-tracks query, with `last_played_at` set,
have their weight multiplied by the decay factor. -/
def decayUpdate (dd now : Int) (p : Preference) : Preference :=
  if decayPred dd now p then
    match p.lastPlayedAt with
    | some lpa =>
        applyUpsert now
          { weight := some (p.weight * decayFactor dd (daysSince now lpa)) }
          (some p)
    | none => p
  else p

/-- The decay pass of `Curator.update_preferences`
(`curator.py:323-336`), as a map for the same reason as the
negative-signal pass. -/
def decayPass (dd now : Int) (db : PrefTable) : PrefTable :=
  db.map fun e => (e.1, decayUpdate dd now e.2)

/-- `Curator.update_preferences` (`curator.py:305-338`): the
negative-signal pass over the full candidate set, then — the decaying
query being issued only after the negative loop has committed — the
decay pass over the updated table. -/
def update_preferences (hh hs dd now : Int) (db : PrefTable) : PrefTable :=
  decayPass dd now (negativePass hh hs now db)

/-! ## Song-name normalization (`normalize_song_name`, `curator.py:21-37`)

The three `NORMALIZE_PATTERNS` regexes are embedded as explicit
left-to-right scans with Python `re` semantics: leftmost match, lazy
`.*?` (earliest keyword occurrence, alternatives in the pattern's
order), `.` not matching a newline, greedy `\s*` at the edges of the
match, and `re.sub` deleting every non-overlapping match. -/

/-- Python ASCII whitespace, as matched by `\s` and `str.strip()`. -/
def pyWs (c : Char) : Bool :=
  c = ' ' || c = '\t' || c = '\n' || c = '\r' || c = '\x0b' || c = '\x0c'

/-- `str.strip()` on a character list. -/
def stripList (l : List Char) : List Char :=
  ((l.dropWhile pyWs).reverse.dropWhile pyWs).reverse

/-- The qualifier vocabulary of the parenthetical/bracketed patterns
(`curator.py:22-23`), in the alternation's order; `feat\.?` and `ft\.?`
expand to their greedy-first alternatives. -/
def normalizeKeywords : List (List Char) :=
  [ "remix", "acoustic", "live", "radio edit", "edit", "version", "remaster",
    "deluxe", "bonus", "explicit", "clean", "instrumental", "extended",
    "single", "album", "original", "mix", "feat.", "feat", "ft.", "ft"
  ].map String.toList

/-- The suffix vocabulary of the trailing-dash pattern
(`curator.py:24`). -/
def dashKeywords : List (List Char) :=
  [ "remix", "acoustic", "live", "radio edit", "edit", "remaster",
    "remastered" ].map String.toList

/-- Length of the first keyword of `kws` matching at the head of `s`. -/
def matchKw (kws : List (List Char)) (s : List Char) : Option Nat :=
  (kws.find? (fun k => k.isPrefixOf s)).map List.length

/-- Lazy scan for the earliest keyword occurrence: offset and matched
length, with a newline blocking the `.*?` gap. -/
def findKw (kws : List (List Char)) : List Char → Option (Nat × Nat)
  | [] => none
  | c :: rest =>
      match matchKw kws (c :: rest) with
      | some len => some (0, len)
      | none =>
          if c = '\n' then none
          else (findKw kws rest).map (fun p => (p.1 + 1, p.2))

/-- Lazy scan for the closing delimiter, with a newline blocking the
`.*?` gap. -/
def findClose (clc : Char) : List Char → Option Nat
  | [] => none
  | c :: rest =>
      if c = clc then some 0
      else if c = '\n' then none
      else (findClose clc rest).map (· + 1)

/-- Leftmost viable delimited qualifier: the first opening delimiter
followed (without an intervening newline) by a vocabulary keyword and
then a closing delimiter.  Returns the delimiter's index and the index
one past the closing delimiter. -/
def findParen (opc clc : Char) (kws : List (List Char)) :
    Nat → List Char → Option (Nat × Nat)
  | _, [] => none
  | i, c :: rest =>
      if c = opc then
        match findKw kws rest with
        | some (o, len) =>
            match findClose clc (rest.drop (o + len)) with
            | some j => some (i, i + 1 + o + len + j + 1)
            | none => findParen opc clc kws (i + 1) rest
        | none => findParen opc clc kws (i + 1) rest
      else findParen opc clc kws (i + 1) rest

/-- `re.sub` of one delimited-qualifier pattern: repeatedly delete the
leftmost match together with the greedy whitespace runs on either side,
continuing after the deleted region.  Each deletion removes at least two
characters, so fuel equal to the input length suffices. -/
def subParen (opc clc : Char) (kws : List (List Char)) :
    Nat → List Char → List Char
  | 0, s => s
  | fuel + 1, s =>
      match findParen opc clc kws 0 s with
      | none => s
      | some (i, e) =>
          let wsBefore := ((s.take i).reverse.takeWhile pyWs).length
          let after := (s.drop e).dropWhile pyWs
          s.take (i - wsBefore) ++ subParen opc clc kws fuel after

/-- Leftmost dash followed (after greedy whitespace) by a suffix
keyword; no keyword starts with whitespace, so only the maximal
whitespace run can precede a match. -/
def findDash (kws : List (List Char)) : Nat → List Char → Option Nat
  | _, [] => none
  | i, c :: rest =>
      if c = '-' then
        if kws.any (fun k => k.isPrefixOf (rest.dropWhile pyWs)) then some i
        else findDash kws (i + 1) rest
      else findDash kws (i + 1) rest

/-- `re.sub` of the trailing-dash pattern: the match extends to the end
of the string, so at most one deletion happens. -/
def subDash (kws : List (List Char)) (s : List Char) : List Char :=
  match findDash kws 0 s with
  | none => s
  | some i =>
      let wsBefore := ((s.take i).reverse.takeWhile pyWs).length
      s.take (i - wsBefore)

/-- `normalize_song_name` (`curator.py:28-37`): lower-case, strip, the
three substitution passes in source order, strip. -/
def normalize_song_name (name : String) : String :=
  let s0 := stripList (name.toList.map Char.toLower)
  let s1 := subParen '(' ')' normalizeKeywords s0.length s0
  let s2 := subParen '[' ']' normalizeKeywords s1.length s1
  let s3 := subDash dashKeywords s2
  String.mk (stripList s3)

/-! ## Deduplication filter
(`Curator.create_or_update_playlist`, `curator.py:445-464`) -/

/-- The name/artist columns of a `tracks` row, as read back by
`Repository.get_track_by_apple_id` for a candidate id, or carried by an
existing playlist entry. -/
structure DbTrack where
  name : String
  artistName : String
deriving DecidableEq, Repr

/-- The normalized duplicate-detection key (`curator.py:450-451`,
`460-461`): lower-cased artist name joined to the normalized song
name. -/
def dedupKey (artistName name : String) : String :=
  strLower artistName ++ ":" ++ normalize_song_name name

/-- The working key set seeded from the existing playlist contents
(`curator.py:447-452`). -/
def existingKeysOf (ts : List DbTrack) : List String :=
  ts.map (fun t => dedupKey t.artistName t.name)

/-- The candidate filter of `Curator.create_or_update_playlist`
(`curator.py:455-464`): visit candidate ids in order, resolve each
through the track store, keep it only when its key is not yet in the
working set, and extend the working set with each kept key. -/
def filterNewTracks (lookup : String → Option DbTrack) :
    List String → List String → List String
  | _, [] => []
  | keys, tid :: rest =>
      match lookup tid with
      | some tr =>
          let key := dedupKey tr.artistName tr.name
          if key ∈ keys then filterNewTracks lookup keys rest
          else tid :: filterNewTracks lookup (key :: keys) rest
      | none => filterNewTracks lookup keys rest

/-- Modelled from the spec's words (§4.4 Behavior): fold over the
candidates in input order carrying a working set of keys and an output
accumulator; a candidate is appended to the output, and its key to the
working set, exactly when its key is absent from the working set. -/
def filterNewSpec (lookup : String → Option DbTrack) (keys : List String)
    (cands : List String) : List String :=
  (cands.foldl
    (fun acc tid =>
      match lookup tid with
      | some tr =>
          let key := dedupKey tr.artistName tr.name
          if key ∈ acc.1 then acc else (key :: acc.1, acc.2 ++ [tid])
      | none => acc)
    (keys, ([] : List String))).2

/-! ## Orchestration error handling
(`Curator.refresh_playlist`, `curator.py:487-582`) -/

/-- A collaborator failure: `AuthenticationError` is caught separately
from generic exceptions (`curator.py:551,571`). -/
inductive CuratorError where
  | auth (msg : String)
  | general (msg : String)
deriving DecidableEq, Repr

/-- `str(e)`. -/
def CuratorError.message : CuratorError → String
  | .auth m => m
  | .general m => m

/-- The `status` string passed to `log_sync` in the matching `except`
branch (`curator.py:557,577`). -/
def CuratorError.logStatus : CuratorError → String
  | .auth _ => "auth_failure"
  | .general _ => "failure"

/-- A `sync_logs` row as created by `Repository.log_sync`
(`database/repository.py:405-427`). -/
structure SyncLogEntry where
  syncType : String
  status : String
  tracksAdded : Nat := 0
  errorMessage : Option String := none
  durationSeconds : ℚ := 0
deriving DecidableEq, Repr

/-- The summary dictionary returned on success (`curator.py:540-546`). -/
structure RefreshSummary where
  status : String
  playlistId : String
  trackCount : Nat
  artistsDiscovered : Nat
deriving DecidableEq, Repr

/-- The collaborator calls sequenced by `Curator.refresh_playlist`, each
able to raise; `collectTracks` yields the hits, discovery and wildcard
pools, and `createOrUpdate` consumes the built track-id list. -/
structure RefreshSteps where
  initDb : Except CuratorError Unit
  updatePrefs : Except CuratorError Unit
  discoverArtists : Except CuratorError (List String)
  collectTracks : Except CuratorError (List TrackInfo × List TrackInfo × List TrackInfo)
  getFavorites : Except CuratorError (List TrackInfo)
  createOrUpdate : List String → Except CuratorError String
  upsertState : Except CuratorError Unit

/-- The `log_sync` row written by the `except` branches
(`curator.py:555-560,575-580`). -/
def failLog (e : CuratorError) (dur : ℚ) : SyncLogEntry :=
  { syncType := "refresh", status := e.logStatus, tracksAdded := 0,
    errorMessage := some e.message, durationSeconds := dur }

/-- `Curator.refresh_playlist` (`curator.py:487-582`): run the steps in
source order; on the first failure write exactly the matching failed
run-log row and re-raise; on success write the success row and return
the summary.  The auth-failure email side channel (`curator.py:562-567`)
touches no run-log state and is not modelled. -/
def refresh_playlist (size : Nat) (w : AlgorithmWeights) (dur : ℚ)
    (steps : RefreshSteps) :
    List SyncLogEntry × Except CuratorError RefreshSummary :=
  match steps.initDb with
  | .error e => ([failLog e dur], .error e)
  | .ok _ =>
  match steps.updatePrefs with
  | .error e => ([failLog e dur], .error e)
  | .ok _ =>
  match steps.discoverArtists with
  | .error e => ([failLog e dur], .error e)
  | .ok artistIds =>
  match steps.collectTracks with
  | .error e => ([failLog e dur], .error e)
  | .ok pools =>
  match steps.getFavorites with
  | .error e => ([failLog e dur], .error e)
  | .ok favs =>
      let ids := build_playlist size w favs pools.1 pools.2.1 pools.2.2
      match steps.createOrUpdate ids with
      | .error e => ([failLog e dur], .error e)
      | .ok pid =>
      match steps.upsertState with
      | .error e => ([failLog e dur], .error e)
      | .ok _ =>
          ( [{ syncType := "refresh", status := "success",
               tracksAdded := ids.length, errorMessage := none,
               durationSeconds := dur }]
          , .ok { status := "success", playlistId := pid,
                  trackCount := ids.length,
                  artistsDiscovered := artistIds.length } )

/-! ## Lemmas about the rotation interleaver -/

theorem popFirst_length {α : Type} :
    ∀ (f : Nat) (ls ls' : List (List α)) (x : α),
      popFirst f ls = some (x, ls') → ls'.length = ls.length := by
  intro f
  induction f with
  | zero => intro ls ls' x h; simp [popFirst] at h
  | succ f ih =>
    intro ls ls' x h
    match ls with
    | [] => simp [popFirst] at h
    | [] :: rest =>
        simp only [popFirst] at h
        have h' := ih _ _ _ h
        simp only [List.length_append, List.length_cons, List.length_nil] at h' ⊢
        omega
    | (y :: t) :: rest =>
        simp only [popFirst, Option.some.injEq, Prod.mk.injEq] at h
        obtain ⟨-, rfl⟩ := h
        simp

theorem popFirst_flatten_perm {α : Type} :
    ∀ (f : Nat) (ls ls' : List (List α)) (x : α),
      popFirst f ls = some (x, ls') → (x :: ls'.flatten).Perm ls.flatten := by
  intro f
  induction f with
  | zero => intro ls ls' x h; simp [popFirst] at h
  | succ f ih =>
    intro ls ls' x h
    match ls with
    | [] => simp [popFirst] at h
    | [] :: rest =>
        simp only [popFirst] at h
        have h' := ih _ _ _ h
        simpa using h'
    | (y :: t) :: rest =>
        simp only [popFirst, Option.some.injEq, Prod.mk.injEq] at h
        obtain ⟨rfl, rfl⟩ := h
        simp only [List.flatten_append, List.flatten_cons, List.flatten_nil,
          List.append_nil, List.cons_append]
        exact List.Perm.cons y List.perm_append_comm

theorem popFirst_none_blank {α : Type} :
    ∀ (f : Nat) (ls : List (List α)),
      popFirst f ls = none → ∀ l ∈ ls.take f, l = [] := by
  intro f
  induction f with
  | zero => intro ls _ l hl; simp at hl
  | succ f ih =>
    intro ls h l hl
    match ls with
    | [] => simp at hl
    | [] :: rest =>
        simp only [popFirst] at h
        rcases List.mem_cons.mp (by simpa using hl) with h1 | h1
        · exact h1
        · exact ih _ h l (by
            have : l ∈ (rest ++ [([] : List α)]).take f := by
              rw [List.take_append_eq_append_take]
              exact List.mem_append_left _ h1
            exact this)
    | (y :: t) :: rest => simp [popFirst] at h

theorem popFirst_none_flatten {α : Type} (ls : List (List α))
    (h : popFirst ls.length ls = none) : ls.flatten = [] := by
  have h' := popFirst_none_blank ls.length ls h
  rw [List.take_length] at h'
  exact List.flatten_eq_nil_iff.mpr h'

theorem interleaveAux_perm {α : Type} :
    ∀ (r : Nat) (ls : List (List α)),
      ls.flatten.length ≤ r → (interleaveAux r ls).Perm ls.flatten := by
  intro r
  induction r with
  | zero =>
    intro ls h
    have hnil : ls.flatten = [] := List.eq_nil_of_length_eq_zero (Nat.le_zero.mp h)
    simp [interleaveAux, hnil]
  | succ r ih =>
    intro ls h
    unfold interleaveAux
    cases hp : popFirst ls.length ls with
    | none =>
        have := popFirst_none_flatten ls hp
        simp [this]
    | some p =>
        obtain ⟨x, ls'⟩ := p
        have hperm := popFirst_flatten_perm _ _ _ _ hp
        have hlen : ls'.flatten.length + 1 = ls.flatten.length := by
          have := hperm.length_eq
          simpa using this
        have hle : ls'.flatten.length ≤ r := by omega
        exact ((ih ls' hle).cons x).trans hperm

theorem interleaveAux_length_le {α : Type} :
    ∀ (r : Nat) (ls : List (List α)), (interleaveAux r ls).length ≤ r := by
  intro r
  induction r with
  | zero => intro ls; simp [interleaveAux]
  | succ r ih =>
    intro ls
    unfold interleaveAux
    cases hp : popFirst ls.length ls with
    | none => simp
    | some p =>
        obtain ⟨x, ls'⟩ := p
        simpa using Nat.succ_le_succ (ih ls')

/-- With nonnegative weights summing to 1, the four floor-quotas total
at most the playlist size. -/
theorem quota_sum_le (size : Nat) (w : AlgorithmWeights)
    (hf : 0 ≤ w.favorites) (hh : 0 ≤ w.hits) (hd : 0 ≤ w.discovery)
    (hw : 0 ≤ w.wildcard)
    (hsum : w.favorites + w.hits + w.discovery + w.wildcard = 1) :
    quota size w.favorites + quota size w.hits + quota size w.discovery +
      quota size w.wildcard ≤ size := by
  have hn : (0:ℚ) ≤ (size : ℚ) := by positivity
  have e1 : (quota size w.favorites : ℤ) = ⌊(size : ℚ) * w.favorites⌋ :=
    Int.toNat_of_nonneg (Int.floor_nonneg.mpr (mul_nonneg hn hf))
  have e2 : (quota size w.hits : ℤ) = ⌊(size : ℚ) * w.hits⌋ :=
    Int.toNat_of_nonneg (Int.floor_nonneg.mpr (mul_nonneg hn hh))
  have e3 : (quota size w.discovery : ℤ) = ⌊(size : ℚ) * w.discovery⌋ :=
    Int.toNat_of_nonneg (Int.floor_nonneg.mpr (mul_nonneg hn hd))
  have e4 : (quota size w.wildcard : ℤ) = ⌊(size : ℚ) * w.wildcard⌋ :=
    Int.toNat_of_nonneg (Int.floor_nonneg.mpr (mul_nonneg hn hw))
  have hfl : ⌊(size : ℚ) * w.favorites⌋ + ⌊(size : ℚ) * w.hits⌋ +
      ⌊(size : ℚ) * w.discovery⌋ + ⌊(size : ℚ) * w.wildcard⌋ ≤ (size : ℤ) := by
    have hv : (size : ℚ) * w.favorites + (size : ℚ) * w.hits +
        (size : ℚ) * w.discovery + (size : ℚ) * w.wildcard = (size : ℚ) := by
      rw [← mul_add, ← mul_add, ← mul_add, hsum, mul_one]
    have l1 := Int.floor_le ((size : ℚ) * w.favorites)
    have l2 := Int.floor_le ((size : ℚ) * w.hits)
    have l3 := Int.floor_le ((size : ℚ) * w.discovery)
    have l4 := Int.floor_le ((size : ℚ) * w.wildcard)
    have : ((⌊(size : ℚ) * w.favorites⌋ + ⌊(size : ℚ) * w.hits⌋ +
        ⌊(size : ℚ) * w.discovery⌋ + ⌊(size : ℚ) * w.wildcard⌋ : ℤ) : ℚ) ≤
        (size : ℚ) := by
      push_cast
      linarith
    exact_mod_cast this
  omega

/-- Claim C4 (amended): with nonnegative weights summing to 1, the
built playlist never exceeds the target size, the floor-quotas total at
most the target size, and the length equals the target exactly when
every pool covers its quota and the quotas total exactly the target
(the extra totality condition is forced: floors of weights summing to 1
can still under-allocate). -/
theorem c4_build_playlist_length (size : Nat) (w : AlgorithmWeights)
    (favorites hits discovery wildcard : List TrackInfo)
    (hf : 0 ≤ w.favorites) (hh : 0 ≤ w.hits) (hd : 0 ≤ w.discovery)
    (hw : 0 ≤ w.wildcard)
    (hsum : w.favorites + w.hits + w.discovery + w.wildcard = 1) :
    (build_playlist size w favorites hits discovery wildcard).length ≤ size ∧
    quota size w.favorites + quota size w.hits + quota size w.discovery +
      quota size w.wildcard ≤ size ∧
    (quota size w.favorites ≤ favorites.length →
      quota size w.hits ≤ hits.length →
      quota size w.discovery ≤ discovery.length →
      quota size w.wildcard ≤ wildcard.length →
      quota size w.favorites + quota size w.hits + quota size w.discovery +
        quota size w.wildcard = size →
      (build_playlist size w favorites hits discovery wildcard).length = size) := by
  refine ⟨interleaveAux_length_le _ _, quota_sum_le size w hf hh hd hw hsum, ?_⟩
  intro q1 q2 q3 q4 hq
  have hlen : ([ (favorites.take (quota size w.favorites)).map TrackInfo.id
      , (hits.take (quota size w.hits)).map TrackInfo.id
      , (discovery.take (quota size w.discovery)).map TrackInfo.id
      , (wildcard.take (quota size w.wildcard)).map TrackInfo.id ] :
        List (List String)).flatten.length = size := by
    simp only [List.flatten_cons, List.flatten_nil, List.length_append,
      List.length_map, List.length_take, List.length_nil]
    omega
  have hperm := interleaveAux_perm size
    ([ (favorites.take (quota size w.favorites)).map TrackInfo.id
     , (hits.take (quota size w.hits)).map TrackInfo.id
     , (discovery.take (quota size w.discovery)).map TrackInfo.id
     , (wildcard.take (quota size w.wildcard)).map TrackInfo.id ] :
       List (List String)) (le_of_eq hlen)
  rw [build_playlist, hperm.length_eq, hlen]

/-- A favorites-pool track used in concrete builder scenarios. -/
def cexF : TrackInfo := ⟨"fav0", "na", "ar", ""⟩

/-- A hits-pool track used in concrete builder scenarios. -/
def cexH : TrackInfo := ⟨"hit0", "nb", "ar", ""⟩

/-- A discovery-pool track used in concrete builder scenarios. -/
def cexD : TrackInfo := ⟨"dis0", "nc", "ar", ""⟩

/-- A wildcard-pool track used in concrete builder scenarios. -/
def cexW : TrackInfo := ⟨"wil0", "nd", "ar", ""⟩

/-- Claim C4, counterexample to the claim as stated: target size 3,
weights (1/2, 1/2, 0, 0) summing to 1, and every pool at least its
floor-quota, yet the output has length 2, not 3 — the floors of 3/2
under-allocate and the builder does not rebalance. -/
theorem c4_counterexample :
    ((0:ℚ) ≤ 1/2 ∧ (0:ℚ) ≤ 0 ∧ ((1:ℚ)/2 + 1/2 + 0 + 0 = 1)) ∧
    quota 3 ((1:ℚ)/2) ≤ ([cexF] : List TrackInfo).length ∧
    quota 3 ((1:ℚ)/2) ≤ ([cexH] : List TrackInfo).length ∧
    quota 3 ((0:ℚ)) ≤ ([] : List TrackInfo).length ∧
    (build_playlist 3 ⟨1/2, 1/2, 0, 0⟩ [cexF] [cexH] [] []).length = 2 ∧
    ¬ (build_playlist 3 ⟨1/2, 1/2, 0, 0⟩ [cexF] [cexH] [] []).length = 3 := by
  have hq1 : quota 3 ((1:ℚ)/2) = 1 := by norm_num [quota]
  have hq0 : quota 3 ((0:ℚ)) = 0 := by norm_num [quota]
  have hb : (build_playlist 3 ⟨1/2, 1/2, 0, 0⟩ [cexF] [cexH] [] []).length = 2 := by
    simp only [build_playlist]
    norm_num [hq1, hq0]
    decide
  refine ⟨⟨by norm_num, by norm_num, by norm_num⟩, ?_, ?_, ?_, hb, by omega⟩
  · norm_num [quota]
  · norm_num [quota]
  · norm_num [quota]

/-- Witness for C4 at size 10 with weights (2/5, 3/10, 1/5, 1/10). -/
theorem c4_build_playlist_length_witness :
    ((0:ℚ) ≤ 2/5 ∧ (0:ℚ) ≤ 3/10 ∧ (0:ℚ) ≤ 1/5 ∧ (0:ℚ) ≤ 1/10 ∧
      ((2:ℚ)/5 + 3/10 + 1/5 + 1/10 = 1)) ∧
    ((build_playlist 10 ⟨2/5, 3/10, 1/5, 1/10⟩ [cexF] [cexH] [cexD] [cexW]).length ≤ 10 ∧
     quota 10 ((2:ℚ)/5) + quota 10 ((3:ℚ)/10) + quota 10 ((1:ℚ)/5) +
       quota 10 ((1:ℚ)/10) ≤ 10) :=
  ⟨⟨by norm_num, by norm_num, by norm_num, by norm_num, by norm_num⟩,
   (c4_build_playlist_length 10 ⟨2/5, 3/10, 1/5, 1/10⟩ [cexF] [cexH] [cexD] [cexW]
     (by norm_num) (by norm_num) (by norm_num) (by norm_num) (by norm_num)).1,
   (c4_build_playlist_length 10 ⟨2/5, 3/10, 1/5, 1/10⟩ [cexF] [cexH] [cexD] [cexW]
     (by norm_num) (by norm_num) (by norm_num) (by norm_num) (by norm_num)).2.1⟩

/-- Claim C3 (amended): with identity shuffle and nonnegative weights,
whenever the four per-category selections — each of size
`min(floor(N*weight), pool size)` — total at most `N`, and the pools'
id sets are pairwise disjoint, the number of tracks from each category
in the output is exactly `min(floor(N*weight), pool size)`.  The
totality condition is forced: weights may sum above 1 (only each
component is validated into [0,1]), in which case the interleave stops
at `N` and later categories fall short of their quota. -/
theorem c3_build_playlist_counts (size : Nat) (w : AlgorithmWeights)
    (favorites hits discovery wildcard : List TrackInfo)
    (hf : 0 ≤ w.favorites) (hh : 0 ≤ w.hits) (hd : 0 ≤ w.discovery)
    (hw : 0 ≤ w.wildcard)
    (htot : min (quota size w.favorites) favorites.length +
            min (quota size w.hits) hits.length +
            min (quota size w.discovery) discovery.length +
            min (quota size w.wildcard) wildcard.length ≤ size)
    (d12 : (favorites.map TrackInfo.id).Disjoint (hits.map TrackInfo.id))
    (d13 : (favorites.map TrackInfo.id).Disjoint (discovery.map TrackInfo.id))
    (d14 : (favorites.map TrackInfo.id).Disjoint (wildcard.map TrackInfo.id))
    (d23 : (hits.map TrackInfo.id).Disjoint (discovery.map TrackInfo.id))
    (d24 : (hits.map TrackInfo.id).Disjoint (wildcard.map TrackInfo.id))
    (d34 : (discovery.map TrackInfo.id).Disjoint (wildcard.map TrackInfo.id)) :
    (build_playlist size w favorites hits discovery wildcard).countP
        (fun s => decide (s ∈ favorites.map TrackInfo.id)) =
      min (quota size w.favorites) favorites.length ∧
    (build_playlist size w favorites hits discovery wildcard).countP
        (fun s => decide (s ∈ hits.map TrackInfo.id)) =
      min (quota size w.hits) hits.length ∧
    (build_playlist size w favorites hits discovery wildcard).countP
        (fun s => decide (s ∈ discovery.map TrackInfo.id)) =
      min (quota size w.discovery) discovery.length ∧
    (build_playlist size w favorites hits discovery wildcard).countP
        (fun s => decide (s ∈ wildcard.map TrackInfo.id)) =
      min (quota size w.wildcard) wildcard.length := by
  set s1 := (favorites.take (quota size w.favorites)).map TrackInfo.id with hs1
  set s2 := (hits.take (quota size w.hits)).map TrackInfo.id with hs2
  set s3 := (discovery.take (quota size w.discovery)).map TrackInfo.id with hs3
  set s4 := (wildcard.take (quota size w.wildcard)).map TrackInfo.id with hs4
  have hsub1 : ∀ x ∈ s1, x ∈ favorites.map TrackInfo.id := fun x hx =>
    List.map_subset TrackInfo.id (List.take_subset _ _) hx
  have hsub2 : ∀ x ∈ s2, x ∈ hits.map TrackInfo.id := fun x hx =>
    List.map_subset TrackInfo.id (List.take_subset _ _) hx
  have hsub3 : ∀ x ∈ s3, x ∈ discovery.map TrackInfo.id := fun x hx =>
    List.map_subset TrackInfo.id (List.take_subset _ _) hx
  have hsub4 : ∀ x ∈ s4, x ∈ wildcard.map TrackInfo.id := fun x hx =>
    List.map_subset TrackInfo.id (List.take_subset _ _) hx
  have hlen : ([s1, s2, s3, s4] : List (List String)).flatten.length ≤ size := by
    simp only [List.flatten_cons, List.flatten_nil, List.length_append,
      List.length_nil, hs1, hs2, hs3, hs4, List.length_map, List.length_take]
    omega
  have hperm : (build_playlist size w favorites hits discovery wildcard).Perm
      ([s1, s2, s3, s4] : List (List String)).flatten :=
    interleaveAux_perm size _ hlen
  have hflat : ([s1, s2, s3, s4] : List (List String)).flatten = s1 ++ (s2 ++ (s3 ++ s4)) := by
    simp
  have key : ∀ p : String → Bool,
      (build_playlist size w favorites hits discovery wildcard).countP p =
        s1.countP p + s2.countP p + s3.countP p + s4.countP p := by
    intro p
    rw [hperm.countP_eq, hflat]
    simp [List.countP_append]
    omega
  have hlen1 : s1.length = min (quota size w.favorites) favorites.length := by
    simp [hs1]
  have hlen2 : s2.length = min (quota size w.hits) hits.length := by
    simp [hs2]
  have hlen3 : s3.length = min (quota size w.discovery) discovery.length := by
    simp [hs3]
  have hlen4 : s4.length = min (quota size w.wildcard) wildcard.length := by
    simp [hs4]
  refine ⟨?_, ?_, ?_, ?_⟩
  · rw [key]
    have e1 : s1.countP (fun s => decide (s ∈ favorites.map TrackInfo.id)) = s1.length :=
      List.countP_eq_length.mpr (fun x hx => by simpa using hsub1 x hx)
    have e2 : s2.countP (fun s => decide (s ∈ favorites.map TrackInfo.id)) = 0 :=
      List.countP_eq_zero.mpr (fun x hx => by simpa using fun hmem => d12 hmem (hsub2 x hx))
    have e3 : s3.countP (fun s => decide (s ∈ favorites.map TrackInfo.id)) = 0 :=
      List.countP_eq_zero.mpr (fun x hx => by simpa using fun hmem => d13 hmem (hsub3 x hx))
    have e4 : s4.countP (fun s => decide (s ∈ favorites.map TrackInfo.id)) = 0 :=
      List.countP_eq_zero.mpr (fun x hx => by simpa using fun hmem => d14 hmem (hsub4 x hx))
    rw [e1, e2, e3, e4, hlen1]
    omega
  · rw [key]
    have e1 : s1.countP (fun s => decide (s ∈ hits.map TrackInfo.id)) = 0 :=
      List.countP_eq_zero.mpr (fun x hx => by
        simpa using fun hmem => d12 (hsub1 x hx) hmem)
    have e2 : s2.countP (fun s => decide (s ∈ hits.map TrackInfo.id)) = s2.length :=
      List.countP_eq_length.mpr (fun x hx => by simpa using hsub2 x hx)
    have e3 : s3.countP (fun s => decide (s ∈ hits.map TrackInfo.id)) = 0 :=
      List.countP_eq_zero.mpr (fun x hx => by simpa using fun hmem => d23 hmem (hsub3 x hx))
    have e4 : s4.countP (fun s => decide (s ∈ hits.map TrackInfo.id)) = 0 :=
      List.countP_eq_zero.mpr (fun x hx => by simpa using fun hmem => d24 hmem (hsub4 x hx))
    rw [e1, e2, e3, e4, hlen2]
    omega
  · rw [key]
    have e1 : s1.countP (fun s => decide (s ∈ discovery.map TrackInfo.id)) = 0 :=
      List.countP_eq_zero.mpr (fun x hx => by
        simpa using fun hmem => d13 (hsub1 x hx) hmem)
    have e2 : s2.countP (fun s => decide (s ∈ discovery.map TrackInfo.id)) = 0 :=
      List.countP_eq_zero.mpr (fun x hx => by
        simpa using fun hmem => d23 (hsub2 x hx) hmem)
    have e3 : s3.countP (fun s => decide (s ∈ discovery.map TrackInfo.id)) = s3.length :=
      List.countP_eq_length.mpr (fun x hx => by simpa using hsub3 x hx)
    have e4 : s4.countP (fun s => decide (s ∈ discovery.map TrackInfo.id)) = 0 :=
      List.countP_eq_zero.mpr (fun x hx => by simpa using fun hmem => d34 hmem (hsub4 x hx))
    rw [e1, e2, e3, e4, hlen3]
    omega
  · rw [key]
    have e1 : s1.countP (fun s => decide (s ∈ wildcard.map TrackInfo.id)) = 0 :=
      List.countP_eq_zero.mpr (fun x hx => by
        simpa using fun hmem => d14 (hsub1 x hx) hmem)
    have e2 : s2.countP (fun s => decide (s ∈ wildcard.map TrackInfo.id)) = 0 :=
      List.countP_eq_zero.mpr (fun x hx => by
        simpa using fun hmem => d24 (hsub2 x hx) hmem)
    have e3 : s3.countP (fun s => decide (s ∈ wildcard.map TrackInfo.id)) = 0 :=
      List.countP_eq_zero.mpr (fun x hx => by
        simpa using fun hmem => d34 (hsub3 x hx) hmem)
    have e4 : s4.countP (fun s => decide (s ∈ wildcard.map TrackInfo.id)) = s4.length :=
      List.countP_eq_length.mpr (fun x hx => by simpa using hsub4 x hx)
    rw [e1, e2, e3, e4, hlen4]
    omega

/-- Claim C3, counterexample to the claim as stated over every weight
vector: with target size 1 and all four weights 1.0 (each individually
within the validated range), the hits pool contributes 0 tracks even
though `min(floor(1*1.0), 1) = 1` — the interleave stops at the target
before reaching the hits selection. -/
theorem c3_counterexample :
    ((0:ℚ) ≤ 1 ∧ (1:ℚ) ≤ 1) ∧
    min (quota 1 ((1:ℚ))) ([cexH] : List TrackInfo).length = 1 ∧
    (build_playlist 1 ⟨1, 1, 1, 1⟩ [cexF] [cexH] [cexD] [cexW]).countP
        (fun s => decide (s ∈ ([cexH] : List TrackInfo).map TrackInfo.id)) = 0 := by
  have hq : quota 1 ((1:ℚ)) = 1 := by norm_num [quota]
  have hb : build_playlist 1 ⟨1, 1, 1, 1⟩ [cexF] [cexH] [cexD] [cexW] = [cexF.id] := by
    simp only [build_playlist]
    norm_num [hq]
    decide
  refine ⟨⟨by norm_num, by norm_num⟩, by simp [hq], ?_⟩
  rw [hb]
  decide

/-- Witness for C3 at size 8 with weights (2/5, 3/10, 1/5, 1/10) and
disjoint singleton pools. -/
theorem c3_build_playlist_counts_witness :
    (min (quota 8 ((2:ℚ)/5)) ([cexF] : List TrackInfo).length +
     min (quota 8 ((3:ℚ)/10)) ([cexH] : List TrackInfo).length +
     min (quota 8 ((1:ℚ)/5)) ([cexD] : List TrackInfo).length +
     min (quota 8 ((1:ℚ)/10)) ([cexW] : List TrackInfo).length ≤ 8) ∧
    (build_playlist 8 ⟨2/5, 3/10, 1/5, 1/10⟩ [cexF] [cexH] [cexD] [cexW]).countP
        (fun s => decide (s ∈ ([cexF] : List TrackInfo).map TrackInfo.id)) =
      min (quota 8 ((2:ℚ)/5)) ([cexF] : List TrackInfo).length := by
  have htot : min (quota 8 ((2:ℚ)/5)) ([cexF] : List TrackInfo).length +
     min (quota 8 ((3:ℚ)/10)) ([cexH] : List TrackInfo).length +
     min (quota 8 ((1:ℚ)/5)) ([cexD] : List TrackInfo).length +
     min (quota 8 ((1:ℚ)/10)) ([cexW] : List TrackInfo).length ≤ 8 := by
    norm_num [quota]
  refine ⟨htot, ?_⟩
  exact (c3_build_playlist_counts 8 ⟨2/5, 3/10, 1/5, 1/10⟩ [cexF] [cexH] [cexD] [cexW]
    (by norm_num) (by norm_num) (by norm_num) (by norm_num) htot
    (by intro a ha hb; simp [cexF, cexH] at ha hb; rw [ha] at hb; simp at hb)
    (by intro a ha hb; simp [cexF, cexD] at ha hb; rw [ha] at hb; simp at hb)
    (by intro a ha hb; simp [cexF, cexW] at ha hb; rw [ha] at hb; simp at hb)
    (by intro a ha hb; simp [cexH, cexD] at ha hb; rw [ha] at hb; simp at hb)
    (by intro a ha hb; simp [cexH, cexW] at ha hb; rw [ha] at hb; simp at hb)
    (by intro a ha hb; simp [cexD, cexW] at ha hb; rw [ha] at hb; simp at hb)).1

/-- Claim C5: the classifier applies its rules in precedence order —
a track whose release year is below `min_release_year` is rejected;
otherwise a track whose release instant is at or after the wildcard
cutoff is wildcard regardless of library membership; otherwise a track
whose lower-cased artist:name key is in the library index is hits;
otherwise it is discovery. -/
theorem c5_classify_precedence (minReleaseYear cutoff : Int)
    (lib : List String) (t : CandidateTrack) :
    (∀ d, t.release = some d → d.year < minReleaseYear →
      classify minReleaseYear cutoff lib t = none) ∧
    (∀ d, t.release = some d → minReleaseYear ≤ d.year → cutoff ≤ d.epoch →
      classify minReleaseYear cutoff lib t = some Category.wildcard) ∧
    ((∀ d, t.release = some d → minReleaseYear ≤ d.year ∧ d.epoch < cutoff) →
      trackKey t.artistName t.name ∈ lib →
      classify minReleaseYear cutoff lib t = some Category.hits) ∧
    ((∀ d, t.release = some d → minReleaseYear ≤ d.year ∧ d.epoch < cutoff) →
      trackKey t.artistName t.name ∉ lib →
      classify minReleaseYear cutoff lib t = some Category.discovery) := by
  refine ⟨?_, ?_, ?_, ?_⟩
  · intro d hd hy
    simp [classify, hd, hy]
  · intro d hd hy he
    simp [classify, hd, not_lt.mpr hy, he]
  · intro hall hmem
    cases hrel : t.release with
    | none => simp [classify, hrel, hmem]
    | some d =>
        obtain ⟨h1, h2⟩ := hall d hrel
        simp [classify, hrel, not_lt.mpr h1, not_le.mpr h2, hmem]
  · intro hall hmem
    cases hrel : t.release with
    | none => simp [classify, hrel, hmem]
    | some d =>
        obtain ⟨h1, h2⟩ := hall d hrel
        simp [classify, hrel, not_lt.mpr h1, not_le.mpr h2, hmem]

/-- The library artist used in classifier scenarios. -/
def artistK : String := "Band"

/-- The library song used in classifier scenarios. -/
def songK : String := "Known Song"

/-- A one-entry library index for classifier scenarios. -/
def c5lib : List String := [trackKey artistK songK]

/-- Released 25 days before "now" (epoch day 1000, cutoff at day 970
for `new_release_days = 30`): wildcard despite library membership. -/
def wtrack : CandidateTrack :=
  { id := "w1", name := songK, artistName := artistK,
    release := some ⟨85968000, 2025⟩ }

/-- Released in 2005, before `min_release_year = 2020`: rejected. -/
def rtrack : CandidateTrack :=
  { id := "r1", name := songK, artistName := artistK,
    release := some ⟨43200000, 2005⟩ }

/-- An old-enough 2021 release found in the library index: hits. -/
def htrack : CandidateTrack :=
  { id := "h1", name := songK, artistName := artistK,
    release := some ⟨69120000, 2021⟩ }

/-- An old-enough 2021 release not in the library index: discovery. -/
def dtrack : CandidateTrack :=
  { id := "d1", name := "Other Song", artistName := artistK,
    release := some ⟨69120000, 2021⟩ }

/-- Witness for C5: all four precedence branches exercised at concrete
tracks with `min_release_year = 2020` and wildcard cutoff at epoch day
970. -/
theorem c5_classify_precedence_witness :
    classify 2020 83808000 c5lib wtrack = some Category.wildcard ∧
    classify 2020 83808000 c5lib rtrack = none ∧
    classify 2020 83808000 c5lib htrack = some Category.hits ∧
    classify 2020 83808000 c5lib dtrack = some Category.discovery :=
  ⟨(c5_classify_precedence 2020 83808000 c5lib wtrack).2.1 ⟨85968000, 2025⟩ rfl
      (by decide) (by decide),
   (c5_classify_precedence 2020 83808000 c5lib rtrack).1 ⟨43200000, 2005⟩ rfl
      (by decide),
   (c5_classify_precedence 2020 83808000 c5lib htrack).2.2.1
      (by intro d hd
          rw [show htrack.release = some ⟨69120000, 2021⟩ from rfl] at hd
          cases hd
          exact ⟨by decide, by decide⟩)
      (by decide),
   (c5_classify_precedence 2020 83808000 c5lib dtrack).2.2.2
      (by intro d hd
          rw [show dtrack.release = some ⟨69120000, 2021⟩ from rfl] at hd
          cases hd
          exact ⟨by decide, by decide⟩)
      (by decide)⟩

/-- Claim C10: a candidate without a release timestamp is never
rejected by the `min_release_year` filter and never classified
wildcard; it is hits exactly when its key is in the library index and
discovery otherwise, independently of `min_release_year` and the
wildcard cutoff. -/
theorem c10_classify_no_release (minY minY' cutoff cutoff' : Int)
    (lib : List String) (t : CandidateTrack) (h : t.release = none) :
    classify minY cutoff lib t =
      (if trackKey t.artistName t.name ∈ lib then some Category.hits
       else some Category.discovery) ∧
    classify minY cutoff lib t ≠ none ∧
    classify minY cutoff lib t ≠ some Category.wildcard ∧
    classify minY cutoff lib t = classify minY' cutoff' lib t := by
  by_cases hm : trackKey t.artistName t.name ∈ lib <;>
    simp [classify, h, hm]

/-- A candidate with no release timestamp, in the library index. -/
def ntrack : CandidateTrack :=
  { id := "n1", name := songK, artistName := artistK, release := none }

/-- Witness for C10: the dateless library track classifies as hits for
two very different choices of year filter and cutoff. -/
theorem c10_classify_no_release_witness :
    ntrack.release = none ∧
    (classify 2020 83808000 c5lib ntrack =
      (if trackKey ntrack.artistName ntrack.name ∈ c5lib then some Category.hits
       else some Category.discovery) ∧
     classify 2020 83808000 c5lib ntrack ≠ none ∧
     classify 2020 83808000 c5lib ntrack ≠ some Category.wildcard ∧
     classify 2020 83808000 c5lib ntrack = classify 9999 0 c5lib ntrack) :=
  ⟨rfl, c10_classify_no_release 2020 9999 83808000 0 c5lib ntrack rfl⟩

/-! ## Lemmas about the learning passes -/

/-- A weight-only upsert on an existing row only replaces the weight. -/
theorem applyUpsert_weight (now : Int) (w : ℚ) (p : Preference) :
    applyUpsert now { weight := some w } (some p) = { p with weight := w } := rfl

/-- Row lookup commutes with any key-preserving per-row update. -/
theorem findPref_map (g : Preference → Preference) (db : PrefTable) (tid : Nat) :
    findPref (db.map (fun e => (e.1, g e.2))) tid = (findPref db tid).map g := by
  induction db with
  | nil => simp [findPref]
  | cons e rest ih =>
    by_cases he : e.1 = tid
    · simp [findPref, List.find?_cons, he]
    · simpa [findPref, List.find?_cons, he] using ih

/-- Row lookup after the negative-signal pass. -/
theorem findPref_negativePass (hh hs now : Int) (db : PrefTable) (tid : Nat)
    (p : Preference) (h : findPref db tid = some p) :
    findPref (negativePass hh hs now db) tid = some (negUpdate hh hs now p) := by
  rw [negativePass, findPref_map, h, Option.map_some']

/-- Row lookup after the decay pass. -/
theorem findPref_decayPass (dd now : Int) (db : PrefTable) (tid : Nat)
    (p : Preference) (h : findPref db tid = some p) :
    findPref (decayPass dd now db) tid = some (decayUpdate dd now p) := by
  rw [decayPass, findPref_map, h, Option.map_some']

/-- Row lookup after one full learning cycle: the negative-signal
update first, the decay update second. -/
theorem findPref_update_preferences (hh hs dd now : Int) (db : PrefTable)
    (tid : Nat) (p : Preference) (h : findPref db tid = some p) :
    findPref (update_preferences hh hs dd now db) tid =
      some (decayUpdate dd now (negUpdate hh hs now p)) := by
  rw [update_preferences,
    findPref_decayPass dd now _ tid _ (findPref_negativePass hh hs now db tid p h)]

/-- A hot-zone row — position within the hot zone, stale for at least
`hot_zone_hours`, no play-count increase — has its weight replaced by
`max(0.1, weight * 0.7)`. -/
theorem negUpdate_eq (hh hs now : Int) (p : Preference) (pos added : Int)
    (hpos : p.playlistPosition = some pos) (hposle : pos ≤ hs)
    (hadd : p.addedToPlaylistAt = some added)
    (hstale : added ≤ now - hh * 3600)
    (hdelta : p.playCount = p.playCountPrevious) :
    negUpdate hh hs now p = { p with weight := negWeight p.weight } := by
  have hpred : hotZonePred hh hs now p = true := by
    simp [hotZonePred, hpos, hadd, hposle, hstale, hdelta]
  simp [negUpdate, hpred, applyUpsert_weight]

/-- Claim C6: a track-preference pair at playlist position at most
`hot_zone_size`, added to the playlist at least `hot_zone_hours` ago,
with `play_count = play_count_previous`, has its weight set to
`max(0.1, weight * 0.7)` by the negative-signal pass. -/
theorem c6_negative_signal (hh hs now : Int) (db : PrefTable) (tid : Nat)
    (p : Preference) (pos added : Int)
    (hfind : findPref db tid = some p)
    (hpos : p.playlistPosition = some pos) (hposle : pos ≤ hs)
    (hadd : p.addedToPlaylistAt = some added)
    (hstale : added ≤ now - hh * 3600)
    (hdelta : p.playCount = p.playCountPrevious) :
    findPref (negativePass hh hs now db) tid =
      some { p with weight := max (1/10) (p.weight * (7/10)) } := by
  rw [findPref_negativePass hh hs now db tid p hfind,
    negUpdate_eq hh hs now p pos added hpos hposle hadd hstale hdelta]
  rfl

/-- The preference of the C6/C7 witness scenarios: weight 1.0 in
hot-zone position 3, added 50 hours ago with no play-count change, last
played 20 days ago. -/
def c6pref : Preference :=
  { playCount := 4, playCountPrevious := 4, playlistPosition := some 3,
    addedToPlaylistAt := some 1548000, inLibrary := false, isRated := false,
    weight := 1, lastPlayedAt := some 0 }

/-- A one-row preference table holding `c6pref`. -/
def c6db : PrefTable := [(1, c6pref)]

/-- Witness for C6: weight 1.0, hot-zone position 3 (size 10), 50 hours
stale (now = epoch 1728000, added = 1548000), zero play delta — the
negative-signal pass yields weight 0.7. -/
theorem c6_negative_signal_witness :
    findPref c6db 1 = some c6pref ∧
    c6pref.playlistPosition = some 3 ∧ (3:Int) ≤ 10 ∧
    c6pref.addedToPlaylistAt = some 1548000 ∧
    (1548000:Int) ≤ 1728000 - 48 * 3600 ∧
    c6pref.playCount = c6pref.playCountPrevious ∧
    (findPref (negativePass 48 10 1728000 c6db) 1).map Preference.weight =
      some (7/10) := by
  refine ⟨rfl, rfl, by decide, rfl, by decide, rfl, ?_⟩
  rw [c6_negative_signal 48 10 1728000 c6db 1 c6pref 3 1548000 rfl rfl
    (by decide) rfl (by decide) rfl]
  norm_num [c6pref]

/-- A decaying row — non-null `last_played_at` strictly older than
`decay_days` — has its weight multiplied by the decay factor. -/
theorem decayUpdate_eq (dd now : Int) (p : Preference) (lpa : Int)
    (hlpa : p.lastPlayedAt = some lpa) (hold : lpa < now - dd * 86400) :
    decayUpdate dd now p =
      { p with weight := p.weight * decayFactor dd (daysSince now lpa) } := by
  have hpred : decayPred dd now p = true := by
    simp [decayPred, hlpa, hold]
  simp [decayUpdate, hpred, hlpa, applyUpsert_weight]

/-- Claim C7: (a) the decay pass multiplies the weight of every
preference whose `last_played_at` is older than `decay_days` by
`max(0.5, 1 - (days_since_play - decay_days) * 0.02)`; (b) one learning
cycle runs the negative-signal pass before the decay pass, so a track
satisfying both predicates ends with
`max(0.1, weight * 0.7) * decay_factor` — the 0.7 multiplication first,
the decay multiplication second. -/
theorem c7_decay_after_negative (hh hs dd now : Int) (db : PrefTable)
    (tid : Nat) (p : Preference) (hfind : findPref db tid = some p) :
    (∀ lpa, p.lastPlayedAt = some lpa → lpa < now - dd * 86400 →
      findPref (decayPass dd now db) tid =
        some { p with weight := p.weight * decayFactor dd (daysSince now lpa) }) ∧
    (∀ pos added lpa,
      p.playlistPosition = some pos → pos ≤ hs →
      p.addedToPlaylistAt = some added → added ≤ now - hh * 3600 →
      p.playCount = p.playCountPrevious →
      p.lastPlayedAt = some lpa → lpa < now - dd * 86400 →
      findPref (update_preferences hh hs dd now db) tid =
        some { p with weight :=
          (max (1/10) (p.weight * (7/10))) * decayFactor dd (daysSince now lpa) }) := by
  constructor
  · intro lpa hlpa hold
    rw [findPref_decayPass dd now db tid p hfind,
      decayUpdate_eq dd now p lpa hlpa hold]
  · intro pos added lpa hpos hposle hadd hstale hdelta hlpa hold
    rw [findPref_update_preferences hh hs dd now db tid p hfind,
      negUpdate_eq hh hs now p pos added hpos hposle hadd hstale hdelta,
      decayUpdate_eq dd now ({ p with weight := negWeight p.weight }) lpa hlpa hold]
    rfl

/-- Witness for C7: last played 20 days before "now" with
`decay_days = 14` gives factor `max(0.5, 1 - 6*0.02) = 0.88`; combined
with the hot-zone negative signal of the same cycle the weight 1.0
becomes `0.7 * 0.88 = 0.616`. -/
theorem c7_decay_after_negative_witness :
    findPref c6db 1 = some c6pref ∧
    c6pref.lastPlayedAt = some 0 ∧ (0:Int) < 1728000 - 14 * 86400 ∧
    decayFactor 14 (daysSince 1728000 0) = 22/25 ∧
    (findPref (update_preferences 48 10 14 1728000 c6db) 1).map Preference.weight =
      some (77/125) := by
  have hfac : decayFactor 14 (daysSince 1728000 0) = 22/25 := by
    norm_num [decayFactor, daysSince, Int.fdiv]
  refine ⟨rfl, rfl, by decide, hfac, ?_⟩
  rw [(c7_decay_after_negative 48 10 14 1728000 c6db 1 c6pref rfl).2
    3 1548000 0 rfl (by decide) rfl (by decide) rfl rfl (by decide)]
  rw [show c6pref.weight = 1 from rfl, hfac]
  norm_num

/-! ## Weight bounds of the learning operations -/

/-- The negative-signal update never raises a weight above
`max(0.1, w)`. -/
theorem negWeight_le_max (w : ℚ) : negWeight w ≤ max (1/10) w := by
  unfold negWeight
  rcases le_or_lt 0 w with h | h
  · exact max_le (le_max_left _ _) (le_trans (by nlinarith) (le_max_right _ _))
  · exact max_le (le_max_left _ _) (le_trans (by nlinarith) (le_max_left _ _))

/-- On weights at most 5, the negative-signal update lands in
`[0.1, 5]`. -/
theorem negWeight_bounds (w : ℚ) (h5 : w ≤ 5) :
    1/10 ≤ negWeight w ∧ negWeight w ≤ 5 :=
  ⟨le_max_left _ _, max_le (by norm_num) (by nlinarith)⟩

/-- The per-row negative-signal update never raises a weight above
`max(0.1, w)`. -/
theorem negUpdate_weight_le (hh hs now : Int) (p : Preference) :
    (negUpdate hh hs now p).weight ≤ max (1/10) p.weight := by
  unfold negUpdate
  split
  · exact negWeight_le_max p.weight
  · exact le_max_right _ _

/-- The per-row negative-signal update preserves weights in `(0, 5]`. -/
theorem negUpdate_bounds (hh hs now : Int) (p : Preference)
    (h : 0 < p.weight) (h5 : p.weight ≤ 5) :
    0 < (negUpdate hh hs now p).weight ∧ (negUpdate hh hs now p).weight ≤ 5 := by
  unfold negUpdate
  split
  · obtain ⟨h1, h2⟩ := negWeight_bounds p.weight h5
    exact ⟨lt_of_lt_of_le (by norm_num) h1, h2⟩
  · exact ⟨h, h5⟩

/-- A track last played strictly more than `decay_days` days ago has
floored day count at least `decay_days`. -/
theorem daysSince_ge (dd now lpa : Int) (h : lpa < now - dd * 86400) :
    dd ≤ daysSince now lpa := by
  unfold daysSince
  rw [Int.fdiv_eq_ediv _ (by norm_num)]
  rw [Int.le_ediv_iff_mul_le (by norm_num)]
  omega

/-- Once the day count has reached `decay_days`, the decay factor is at
most one. -/
theorem decayFactor_le_one (dd ds : Int) (h : dd ≤ ds) : decayFactor dd ds ≤ 1 := by
  unfold decayFactor
  have hc : (0:ℚ) ≤ (ds:ℚ) - (dd:ℚ) := by
    rw [sub_nonneg]
    exact_mod_cast h
  exact max_le (by norm_num) (by nlinarith)

/-- The decay factor is always positive (it is floored at 1/2). -/
theorem decayFactor_pos (dd ds : Int) : 0 < decayFactor dd ds :=
  lt_of_lt_of_le (by norm_num) (le_max_left _ _)

/-- The per-row decay update never raises a nonnegative weight, and
keeps a positive weight positive. -/
theorem decayUpdate_weight_le (dd now : Int) (p : Preference) (h0 : 0 ≤ p.weight) :
    (decayUpdate dd now p).weight ≤ p.weight ∧
      (0 < p.weight → 0 < (decayUpdate dd now p).weight) := by
  unfold decayUpdate
  split
  next hpred =>
    split
    next lpa heq =>
      have hold : lpa < now - dd * 86400 := by
        simpa [decayPred, heq] using hpred
      have hds := daysSince_ge dd now lpa hold
      constructor
      · exact mul_le_of_le_one_right h0 (decayFactor_le_one dd _ hds)
      · intro hw
        exact mul_pos hw (decayFactor_pos dd _)
    next => exact ⟨le_refl _, fun h => h⟩
  next => exact ⟨le_refl _, fun h => h⟩

/-- The per-row decay update never raises a weight above
`max(0.1, w)`, whatever the sign of `w`. -/
theorem decayUpdate_weight_le_max (dd now : Int) (p : Preference) :
    (decayUpdate dd now p).weight ≤ max (1/10) p.weight := by
  rcases le_or_lt 0 p.weight with h0 | h0
  · exact le_trans (decayUpdate_weight_le dd now p h0).1 (le_max_right _ _)
  · unfold decayUpdate
    split
    · split
      next lpa heq =>
        have : p.weight * decayFactor dd (daysSince now lpa) ≤ 0 :=
          le_of_lt (mul_neg_of_neg_of_pos h0 (decayFactor_pos dd _))
        exact le_trans this (le_trans (by norm_num) (le_max_left _ _))
      next => exact le_max_right _ _
    · exact le_max_right _ _

/-- The per-row decay update preserves weights in `(0, 5]`. -/
theorem decayUpdate_bounds (dd now : Int) (p : Preference)
    (h : 0 < p.weight) (h5 : p.weight ≤ 5) :
    0 < (decayUpdate dd now p).weight ∧ (decayUpdate dd now p).weight ≤ 5 :=
  ⟨(decayUpdate_weight_le dd now p (le_of_lt h)).2 h,
   le_trans (decayUpdate_weight_le dd now p (le_of_lt h)).1 h5⟩

/-! ## Claims C1 and C2 -/

/-- A preference with stored play count 0 at hot-zone position 1,
about to observe a play delta of 2. -/
def c1pref : Preference :=
  { playCount := 0, playCountPrevious := 0, playlistPosition := some 1,
    addedToPlaylistAt := some 0, inLibrary := false, isRated := false,
    weight := 1, lastPlayedAt := none }

/-- A one-row preference table holding `c1pref`. -/
def c1db : PrefTable := [(1, c1pref)]

/-- Recording the play-count observation 2 for `c1pref` and then
running one learning cycle. -/
def c1dbAfter : PrefTable :=
  update_preferences 48 10 14 10000000
    (upsert_preference 10000000 1 { playCount := some 2 } c1db)

/-- Claim C1, counterexample: a preference with weight 1.0 whose
latest observed play count (2) exceeds the stored count (0) still has
weight 1.0 — not 1.2 = 1 + 2*0.1 — after the observation is recorded
and a learning cycle runs: no code path multiplies the weight by
`1 + delta * 0.1`. -/
theorem c1_counterexample :
    c1pref.weight = 1 ∧ c1pref.playCount = 0 ∧
    (findPref (upsert_preference 10000000 1 { playCount := some 2 } c1db) 1).map
        Preference.playCount = some 2 ∧
    (findPref c1dbAfter 1).map Preference.weight = some 1 ∧
    ¬ (findPref c1dbAfter 1).map Preference.weight = some (1 + 2 * (1/10)) := by
  have hval : (findPref c1dbAfter 1).map Preference.weight = some 1 := rfl
  refine ⟨rfl, rfl, rfl, hval, ?_⟩
  rw [hval]
  simp only [Option.some.injEq]
  norm_num

/-- Claim C1 (amended): the play-count bookkeeping lives in
`Repository.upsert_preference` — given a new play count it moves
`play_count_previous` to the old `play_count` before overwriting
`play_count`, and sets `last_played_at` to now exactly when the count
increased — but it leaves the weight unchanged, and the learning cycle
applies no positive signal: after one cycle every weight is at most
`max(0.1, previous weight)`. -/
theorem c1_no_positive_signal :
    (∀ (now pc : Int) (p : Preference),
      (applyUpsert now { playCount := some pc } (some p)).playCountPrevious = p.playCount ∧
      (applyUpsert now { playCount := some pc } (some p)).playCount = pc ∧
      (p.playCount < pc →
        (applyUpsert now { playCount := some pc } (some p)).lastPlayedAt = some now) ∧
      (¬ p.playCount < pc →
        (applyUpsert now { playCount := some pc } (some p)).lastPlayedAt = p.lastPlayedAt) ∧
      (applyUpsert now { playCount := some pc } (some p)).weight = p.weight) ∧
    (∀ (hh hs dd now : Int) (db : PrefTable) (tid : Nat) (p p' : Preference),
      findPref db tid = some p →
      findPref (update_preferences hh hs dd now db) tid = some p' →
      p'.weight ≤ max (1/10) p.weight) := by
  constructor
  · intro now pc p
    refine ⟨rfl, rfl, ?_, ?_, rfl⟩
    · intro h
      simp [applyUpsert, h]
    · intro h
      simp [applyUpsert, h]
  · intro hh hs dd now db tid p p' hfind hfind'
    rw [findPref_update_preferences hh hs dd now db tid p hfind] at hfind'
    obtain rfl : decayUpdate dd now (negUpdate hh hs now p) = p' :=
      Option.some.inj hfind'
    refine le_trans (decayUpdate_weight_le_max dd now _) ?_
    exact max_le (le_max_left _ _) (negUpdate_weight_le hh hs now p)

/-- Witness for C1: the bookkeeping at play delta 2 on `c1pref`, and
the no-boost bound through one concrete learning cycle. -/
theorem c1_no_positive_signal_witness :
    ((0:Int) < 2) ∧
    (applyUpsert 5 { playCount := some 2 } (some c1pref)).playCountPrevious
      = c1pref.playCount ∧
    (applyUpsert 5 { playCount := some 2 } (some c1pref)).playCount = 2 ∧
    (applyUpsert 5 { playCount := some 2 } (some c1pref)).lastPlayedAt = some 5 ∧
    (applyUpsert 5 { playCount := some 2 } (some c1pref)).weight = c1pref.weight ∧
    (decayUpdate 14 1728000 (negUpdate 48 10 1728000 c6pref)).weight ≤
      max (1/10) c6pref.weight :=
  ⟨by decide,
   (c1_no_positive_signal.1 5 2 c1pref).1,
   (c1_no_positive_signal.1 5 2 c1pref).2.1,
   (c1_no_positive_signal.1 5 2 c1pref).2.2.1 (by decide),
   (c1_no_positive_signal.1 5 2 c1pref).2.2.2.2,
   c1_no_positive_signal.2 48 10 14 1728000 c6db 1 c6pref _ rfl
     (findPref_update_preferences 48 10 14 1728000 c6db 1 c6pref rfl)⟩

/-- A preference that stays both hot-zone-stale and decaying across
cycles: position 1, added at epoch 0, no plays, last played at epoch 0,
observed at "now" 100 days later. -/
def c2pref : Preference :=
  { playCount := 0, playCountPrevious := 0, playlistPosition := some 1,
    addedToPlaylistAt := some 0, inLibrary := false, isRated := false,
    weight := 1, lastPlayedAt := some 0 }

/-- A one-row preference table holding `c2pref`. -/
def c2db : PrefTable := [(1, c2pref)]

/-- One learning cycle at epoch day 100 with the default configuration
(hot zone 48h/size 10, decay after 14 days). -/
def c2cycle (db : PrefTable) : PrefTable := update_preferences 48 10 14 8640000 db

/-- Claim C2, counterexample: starting from the default weight 1.0,
three learning cycles on a track that is simultaneously hot-zone-stale
and decaying drive the weight to 1/20 = 0.05, strictly below the
claimed lower bound 0.1 — the decay multiplication applies no absolute
floor. -/
theorem c2_counterexample :
    (findPref (c2cycle (c2cycle (c2cycle c2db))) 1).map Preference.weight
      = some (1/20) ∧
    ¬ (1/10 : ℚ) ≤ 1/20 := by
  have hds : daysSince 8640000 0 = 100 := by decide
  have hdf : decayFactor 14 100 = 1/2 := by
    rw [decayFactor, max_def]
    norm_num
  have step : ∀ (db : PrefTable) (w : ℚ),
      findPref db 1 = some { c2pref with weight := w } →
      findPref (c2cycle db) 1 =
        some { c2pref with weight := (max (1/10) (w * (7/10))) * (1/2) } := by
    intro db w hf
    rw [c2cycle, findPref_update_preferences 48 10 14 8640000 db 1 _ hf,
      negUpdate_eq 48 10 8640000 _ 1 0 rfl (by decide) rfl (by decide) rfl,
      decayUpdate_eq 14 8640000 _ 0 rfl (by decide)]
    rw [show ({ c2pref with weight := w } : Preference).weight = w from rfl]
    rw [show negWeight w = max (1/10) (w * (7/10)) from rfl]
    rw [show daysSince 8640000 0 = 100 from hds, hdf]
  have h0 : findPref c2db 1 = some { c2pref with weight := (1:ℚ) } := rfl
  have h1 := step _ _ h0
  rw [show (max ((1:ℚ)/10) (1 * (7/10))) * (1/2) = 7/20 from by
    rw [max_def]; norm_num] at h1
  have h2 := step _ _ h1
  rw [show (max ((1:ℚ)/10) ((7/20) * (7/10))) * (1/2) = 49/400 from by
    rw [max_def]; norm_num] at h2
  have h3 := step _ _ h2
  rw [show (max ((1:ℚ)/10) ((49/400) * (7/10))) * (1/2) = 1/20 from by
    rw [max_def]; norm_num] at h3
  rw [h3]
  norm_num

/-- Claim C2 (amended): preference creation defaults the weight to 1.0;
the negative-signal adjustment keeps weights at most 5 inside
`[0.1, 5]`; and the full learning cycle preserves the weaker invariant
`0 < weight ≤ 5` — but not the claimed lower bound 0.1, which the decay
pass can cross. -/
theorem c2_weight_invariant :
    (∀ now : Int, (applyUpsert now {} none).weight = 1) ∧
    (∀ w : ℚ, w ≤ 5 → 1/10 ≤ negWeight w ∧ negWeight w ≤ 5) ∧
    (∀ (hh hs dd now : Int) (db : PrefTable),
      (∀ e ∈ db, 0 < (e : Nat × Preference).2.weight ∧ e.2.weight ≤ 5) →
      ∀ e ∈ update_preferences hh hs dd now db,
        0 < (e : Nat × Preference).2.weight ∧ e.2.weight ≤ 5) := by
  refine ⟨fun now => rfl, fun w h5 => negWeight_bounds w h5, ?_⟩
  intro hh hs dd now db hdb e he
  rw [update_preferences, decayPass, negativePass, List.map_map] at he
  obtain ⟨x, hx, rfl⟩ := List.mem_map.mp he
  obtain ⟨h0, h5⟩ := hdb x hx
  obtain ⟨h0', h5'⟩ := negUpdate_bounds hh hs now x.2 h0 h5
  exact decayUpdate_bounds dd now _ h0' h5'

/-- Witness for C2: the `(0, 5]` invariant at the single row of `c2db`
after one concrete cycle. -/
theorem c2_weight_invariant_witness :
    (0 < c2pref.weight ∧ c2pref.weight ≤ 5) ∧
    0 < (decayUpdate 14 8640000 (negUpdate 48 10 8640000 c2pref)).weight ∧
    (decayUpdate 14 8640000 (negUpdate 48 10 8640000 c2pref)).weight ≤ 5 := by
  have hdb : ∀ e ∈ c2db, 0 < (e : Nat × Preference).2.weight ∧ e.2.weight ≤ 5 := by
    intro e he
    simp only [c2db, List.mem_singleton] at he
    subst he
    constructor <;> norm_num [c2pref]
  have hmem : ((1 : Nat), decayUpdate 14 8640000 (negUpdate 48 10 8640000 c2pref)) ∈
      update_preferences 48 10 14 8640000 c2db := by
    simp [update_preferences, decayPass, negativePass, c2db]
  refine ⟨by constructor <;> norm_num [c2pref], ?_⟩
  exact c2_weight_invariant.2.2 48 10 14 8640000 c2db hdb _ hmem

/-! ## Claims C8 and C9 -/

/-- Unrolling the spec-worded fold: its output accumulator is the
recursive filter's output. -/
theorem filterNew_foldl (lookup : String → Option DbTrack) :
    ∀ (cands keys acc : List String),
      (cands.foldl
        (fun acc' tid =>
          match lookup tid with
          | some tr =>
              let key := dedupKey tr.artistName tr.name
              if key ∈ acc'.1 then acc' else (key :: acc'.1, acc'.2 ++ [tid])
          | none => acc') (keys, acc)).2
      = acc ++ filterNewTracks lookup keys cands := by
  intro cands
  induction cands with
  | nil => intro keys acc; simp [filterNewTracks]
  | cons tid rest ih =>
    intro keys acc
    simp only [List.foldl_cons, filterNewTracks]
    cases hl : lookup tid with
    | none => simp only [hl]; exact ih keys acc
    | some tr =>
      by_cases hk : dedupKey tr.artistName tr.name ∈ keys
      · simp only [hl, hk, if_pos, if_true]
        exact ih keys acc
      · simp only [hl, hk, if_neg, if_false, ite_false]
        rw [ih]
        simp

/-- The artist of the deduplication example. -/
def exArtist : String := "The Artist"

/-- The plain song title already present in the playlist. -/
def exSongPlain : String := "Song Title"

/-- The acoustic variant offered as a new candidate. -/
def exSongAc : String := "Song Title (Acoustic Version)"

/-- A track store resolving the candidate id to the acoustic variant. -/
def exLookup : String → Option DbTrack := fun tid =>
  if tid = "t2" then some ⟨exSongAc, exArtist⟩ else none

/-- An existing playlist already containing the plain song. -/
def exExisting : List DbTrack := [⟨exSongPlain, exArtist⟩]

/-- Claim C8: the deduplication filter visits candidates in input order
and keeps exactly those whose normalized artist:name key is absent from
the existing playlist's keys and from the keys of earlier accepted
candidates — it coincides with the spec's working-set fold — and
"Song Title (Acoustic Version)" normalizes to the same key as
"Song Title" by the same artist, so it is excluded when the latter is
already present. -/
theorem c8_dedup_filter :
    (∀ (lookup : String → Option DbTrack) (keys cands : List String),
      filterNewTracks lookup keys cands = filterNewSpec lookup keys cands) ∧
    dedupKey exArtist exSongAc = dedupKey exArtist exSongPlain ∧
    filterNewTracks exLookup (existingKeysOf exExisting) ["t2"] = [] := by
  refine ⟨?_, by decide, by decide⟩
  intro lookup keys cands
  have h := filterNew_foldl lookup cands keys []
  simp only [List.nil_append] at h
  rw [filterNewSpec, h]

/-- Case analysis of one refresh run: either some collaborator step
failed and the run produced exactly the matching failed log row
together with the propagated error, or every step succeeded and the
run produced exactly the success log row and summary. -/
theorem refresh_cases (size : Nat) (w : AlgorithmWeights) (dur : ℚ)
    (steps : RefreshSteps) :
    (∃ e, refresh_playlist size w dur steps = ([failLog e dur], Except.error e)) ∨
    ((steps.initDb.isOk = true ∧ steps.updatePrefs.isOk = true ∧
      steps.discoverArtists.isOk = true ∧ steps.collectTracks.isOk = true ∧
      steps.getFavorites.isOk = true) ∧
     ∃ pid tc artists, refresh_playlist size w dur steps =
       ([{ syncType := "refresh", status := "success", tracksAdded := tc,
           errorMessage := none, durationSeconds := dur }],
        Except.ok { status := "success", playlistId := pid, trackCount := tc,
                    artistsDiscovered := artists })) := by
  obtain ⟨i, u, da, ct, gf, co, us⟩ := steps
  cases i with
  | error e => exact Or.inl ⟨e, rfl⟩
  | ok v =>
  cases v
  cases u with
  | error e => exact Or.inl ⟨e, rfl⟩
  | ok v =>
  cases v
  cases da with
  | error e => exact Or.inl ⟨e, rfl⟩
  | ok artistIds =>
  cases ct with
  | error e => exact Or.inl ⟨e, rfl⟩
  | ok pools =>
  cases gf with
  | error e => exact Or.inl ⟨e, rfl⟩
  | ok favs =>
  cases hco : co (build_playlist size w favs pools.1 pools.2.1 pools.2.2) with
  | error e =>
      refine Or.inl ⟨e, ?_⟩
      simp only [refresh_playlist]
      rw [hco]
  | ok pid =>
  cases us with
  | error e =>
      refine Or.inl ⟨e, ?_⟩
      simp only [refresh_playlist]
      rw [hco]
  | ok v =>
      cases v
      refine Or.inr ⟨⟨rfl, rfl, rfl, rfl, rfl⟩,
        pid, (build_playlist size w favs pools.1 pools.2.1 pools.2.2).length,
        artistIds.length, ?_⟩
      simp only [refresh_playlist]
      rw [hco]

/-- Claim C9: when a collaborator call fails, the run log holds exactly
one entry, its status is a failure status (never "success") and it
carries the error message, and the error propagates to the caller;
conversely a run that returns a summary logged only success entries. -/
theorem c9_refresh_error_handling (size : Nat) (w : AlgorithmWeights)
    (dur : ℚ) (steps : RefreshSteps) :
    (∀ e, (refresh_playlist size w dur steps).2 = Except.error e →
      (refresh_playlist size w dur steps).1 = [failLog e dur] ∧
      (failLog e dur).status ≠ "success" ∧
      ((failLog e dur).status = "auth_failure" ∨ (failLog e dur).status = "failure") ∧
      (failLog e dur).errorMessage = some e.message) ∧
    ((steps.initDb.isOk = false ∨ steps.updatePrefs.isOk = false ∨
      steps.discoverArtists.isOk = false ∨ steps.collectTracks.isOk = false ∨
      steps.getFavorites.isOk = false) →
      ∃ e, (refresh_playlist size w dur steps).2 = Except.error e) ∧
    (∀ s, (refresh_playlist size w dur steps).2 = Except.ok s →
      ∀ entry ∈ (refresh_playlist size w dur steps).1, entry.status = "success") := by
  refine ⟨?_, ?_, ?_⟩
  · intro e he
    rcases refresh_cases size w dur steps with ⟨e0, heq⟩ | ⟨-, pid, tc, artists, heq⟩
    · rw [heq] at he
      simp only at he
      obtain rfl : e0 = e := Except.error.inj he
      rw [heq]
      refine ⟨rfl, ?_, ?_, rfl⟩ <;> cases e0 <;> simp [failLog, CuratorError.logStatus]
    · rw [heq] at he
      simp at he
  · intro hfail
    rcases refresh_cases size w dur steps with ⟨e0, heq⟩ | ⟨⟨h1, h2, h3, h4, h5⟩, -⟩
    · exact ⟨e0, by rw [heq]⟩
    · rcases hfail with h | h | h | h | h <;> simp_all
  · intro s hs entry hentry
    rcases refresh_cases size w dur steps with ⟨e0, heq⟩ | ⟨-, pid, tc, artists, heq⟩
    · rw [heq] at hs
      simp at hs
    · rw [heq] at hentry
      simp only [List.mem_singleton] at hentry
      rw [hentry]

/-- The error message of the C9 witness scenario. -/
def c9msg : String := "token expired"

/-- The playlist id returned by the (unreached) publish step. -/
def c9pid : String := "p.12345"

/-- A refresh run whose artist-discovery call raises an
authentication error. -/
def c9steps : RefreshSteps :=
  { initDb := Except.ok (), updatePrefs := Except.ok (),
    discoverArtists := Except.error (CuratorError.auth c9msg),
    collectTracks := Except.ok ([], [], []), getFavorites := Except.ok [],
    createOrUpdate := fun _ => Except.ok c9pid, upsertState := Except.ok () }

/-- Witness for C9: the auth failure during artist discovery aborts
the cycle with the error propagated and exactly one auth-failure log
row carrying the message. -/
theorem c9_refresh_error_handling_witness :
    (refresh_playlist 10 ⟨2/5, 3/10, 1/5, 1/10⟩ 0 c9steps).2 =
      Except.error (CuratorError.auth c9msg) ∧
    ((refresh_playlist 10 ⟨2/5, 3/10, 1/5, 1/10⟩ 0 c9steps).1 =
      [failLog (CuratorError.auth c9msg) 0] ∧
     (failLog (CuratorError.auth c9msg) 0).status ≠ "success" ∧
     ((failLog (CuratorError.auth c9msg) 0).status = "auth_failure" ∨
      (failLog (CuratorError.auth c9msg) 0).status = "failure") ∧
     (failLog (CuratorError.auth c9msg) 0).errorMessage =
       some (CuratorError.auth c9msg).message) :=
  ⟨rfl, (c9_refresh_error_handling 10 ⟨2/5, 3/10, 1/5, 1/10⟩ 0 c9steps).1
    (CuratorError.auth c9msg) rfl⟩

end Curator
